import Mathlib

/-!
Verification of the request-translation and response-rewriting pipeline of the
cfworker-proxy worker (src/index.js), as a shallow embedding.

Modelling conventions:
* JavaScript strings are modelled as `List Char`.
* The Fetch API `Headers` container is modelled as a list of name/value pairs.
  Header names observed through iteration or lookups are ASCII-lowercased, as
  the Fetch specification normalizes them; values are byte-preserved.
* Platform builtins (`decodeURIComponent`, `encodeURIComponent`, `new URL`,
  `Headers.set`, `JSON.stringify`) are modelled from their standard semantics.
  `new URL` is modelled as validation of an absolute http/https URL; its
  serializer is the identity on the already-serialized input (WHATWG
  normalization such as host lowercasing or default-port removal is not
  modelled, so theorems about serialized URLs speak of already-normalized
  ASCII serializations, which is what the real serializer produces).
* Fallible builtins return `Except (List Char) _` carrying the thrown
  message, mirroring the single top-level try/catch of the worker.
-/

namespace CFProxy

/-- Convert a Lean string literal to the `List Char` representation used for
JavaScript strings throughout this development. -/
def str (s : String) : List Char := s.toList

/-- JavaScript `String.prototype.startsWith`: does `s` begin with `pat`? -/
def beginsWith : List Char → List Char → Bool
  | _, [] => true
  | [], _ :: _ => false
  | c :: cs, p :: ps => c == p && beginsWith cs ps

/-- JavaScript `String.prototype.includes`: does `s` contain `pat` as a
contiguous substring? -/
def containsSub (s pat : List Char) : Bool :=
  match s with
  | [] => pat.isEmpty
  | _ :: rest => beginsWith s pat || containsSub rest pat

/-- ASCII lowercasing of a string, character by character; header names are
ASCII, for which `Char.toLower` is exactly the Fetch-specification
byte-lowercasing. -/
def lowerStr (s : List Char) : List Char := s.map Char.toLower

/-- All characters of the string are ASCII. -/
def allAscii (s : List Char) : Bool := s.all (fun c => c.toNat < 128)

/-- Numeric value of a hexadecimal digit character (both cases accepted, as in
percent-decoding). -/
def hexVal (c : Char) : Option Nat :=
  let n := c.toNat
  if 48 ≤ n ∧ n ≤ 57 then some (n - 48)
  else if 65 ≤ n ∧ n ≤ 70 then some (n - 65 + 10)
  else if 97 ≤ n ∧ n ≤ 102 then some (n - 97 + 10)
  else none

/-- Uppercase hexadecimal digit for a value below 16, as produced by
`encodeURIComponent`. -/
def hexDigitU (n : Nat) : Char :=
  if n < 10 then Char.ofNat (48 + n) else Char.ofNat (55 + n)

/-- Lowercase hexadecimal digit for a value below 16, as produced by
`JSON.stringify` control-character escapes. -/
def hexDigitL (n : Nat) : Char :=
  if n < 10 then Char.ofNat (48 + n) else Char.ofNat (87 + n)

/-- The characters `encodeURIComponent` leaves unescaped:
`A-Z a-z 0-9 - _ . ! ~ * ' ( )`. -/
def isUnreservedChar (c : Char) : Bool :=
  let n := c.toNat
  (65 ≤ n && n ≤ 90) || (97 ≤ n && n ≤ 122) || (48 ≤ n && n ≤ 57) ||
  n == 45 || n == 95 || n == 46 || n == 33 || n == 126 || n == 42 ||
  n == 39 || n == 40 || n == 41

/-- UTF-8 byte sequence of one Unicode scalar value. -/
def utf8Bytes (c : Char) : List Nat :=
  let n := c.toNat
  if n < 128 then [n]
  else if n < 2048 then [192 + n / 64, 128 + n % 64]
  else if n < 65536 then [224 + n / 4096, 128 + (n / 64) % 64, 128 + n % 64]
  else [240 + n / 262144, 128 + (n / 4096) % 64, 128 + (n / 64) % 64, 128 + n % 64]

/-- Percent-escape of one byte, uppercase hex, as in `encodeURIComponent`. -/
def pctByte (b : Nat) : List Char := ['%', hexDigitU (b / 16), hexDigitU (b % 16)]

/-- `encodeURIComponent` on one character: unreserved characters pass through,
all others are percent-escaped byte by byte of their UTF-8 encoding. -/
def encodeChar (c : Char) : List Char :=
  if isUnreservedChar c then [c] else (utf8Bytes c).flatMap pctByte

/-- JavaScript `encodeURIComponent`. -/
def encodeURIComponent : List Char → List Char
  | [] => []
  | c :: rest => encodeChar c ++ encodeURIComponent rest

/-- Intermediate token of percent-decoding: a byte that came from a `%XX`
escape, or a character that was copied through verbatim. The distinction
matters because only escaped bytes may participate in multi-byte UTF-8
sequences. -/
inductive DecTok
  | esc (b : Nat)
  | raw (c : Char)
deriving DecidableEq

/-- First phase of `decodeURIComponent`: split the input into verbatim
characters and `%XX` escape bytes; `none` when a `%` is not followed by two
hexadecimal digits. -/
def pctTokens : List Char → Option (List DecTok)
  | [] => some []
  | c :: rest =>
    if c == '%' then
      match rest with
      | h1 :: h2 :: rest2 =>
        match hexVal h1, hexVal h2 with
        | some a, some b => (pctTokens rest2).map (fun ts => DecTok.esc (a * 16 + b) :: ts)
        | _, _ => none
      | _ => none
    else (pctTokens rest).map (fun ts => DecTok.raw c :: ts)

/-- Is the byte a UTF-8 continuation byte? -/
def isContByte (b : Nat) : Bool := 128 ≤ b && b < 192

/-- Value of a token usable as a UTF-8 continuation byte: an escape byte in
the continuation range, with its tag bits removed. -/
def escCont (t : DecTok) : Option Nat :=
  match t with
  | DecTok.esc b => if isContByte b then some (b - 128) else none
  | DecTok.raw _ => none

/-- Completion check of a decoded UTF-8 codepoint: at least the minimum for
its sequence length (rejecting overlong forms), inside the Unicode range, and
not a surrogate. -/
def asmFinish (cp minCp : Nat) : Bool :=
  minCp ≤ cp && cp < 1114112 && !(55296 ≤ cp && cp < 57344)

/-- Second phase of `decodeURIComponent`, processed one token at a time: the
optional state holds the number of continuation bytes still expected, the
accumulated value, and the minimum legal codepoint of the current multi-byte
sequence. -/
def asmGo : List DecTok → Option (Nat × Nat × Nat) → Option (List Char)
  | [], none => some []
  | [], some _ => none
  | t :: rest, none =>
    match t with
    | DecTok.raw c => (asmGo rest none).map (fun cs => c :: cs)
    | DecTok.esc b =>
      if b < 128 then (asmGo rest none).map (fun cs => Char.ofNat b :: cs)
      else if b < 192 then none
      else if b < 224 then asmGo rest (some (1, b - 192, 128))
      else if b < 240 then asmGo rest (some (2, b - 224, 2048))
      else if b < 248 then asmGo rest (some (3, b - 240, 65536))
      else none
  | t :: rest, some (k, acc, minCp) =>
    match escCont t with
    | none => none
    | some v =>
      if k ≤ 1 then
        if asmFinish (acc * 64 + v) minCp then
          (asmGo rest none).map (fun cs => Char.ofNat (acc * 64 + v) :: cs)
        else none
      else asmGo rest (some (k - 1, acc * 64 + v, minCp))

/-- Second phase of `decodeURIComponent`: reassemble escape bytes into
characters, requiring well-formed UTF-8 (continuation bytes only inside
sequences, no overlong forms, no surrogates, scalar range). -/
def utf8Assemble (ts : List DecTok) : Option (List Char) := asmGo ts none

/-- JavaScript `decodeURIComponent`; a malformed escape or ill-formed UTF-8
throws `URIError: URI malformed`, modelled as the error message. -/
def decodeURIComponent (s : List Char) : Except (List Char) (List Char) :=
  match (pctTokens s).bind utf8Assemble with
  | none => Except.error (str "URI malformed")
  | some cs => Except.ok cs

/-- Split an absolute http/https URL string into its scheme (with the trailing
colon) and the remainder after the `://`. -/
def schemeSplit (s : List Char) : Option (List Char × List Char) :=
  if beginsWith s (str "http://") then some (str "http:", s.drop 7)
  else if beginsWith s (str "https://") then some (str "https:", s.drop 8)
  else none

/-- The host (including any port) of the remainder after `scheme://`:
everything up to the first `/`, `?` or `#`. -/
def hostPart (afterScheme : List Char) : List Char :=
  afterScheme.takeWhile (fun c => c ≠ '/' ∧ c ≠ '?' ∧ c ≠ '#')

/-- Validity check performed by `new URL(s)` and `new Request(s, ...)` on the
strings this worker builds: an absolute `http://` or `https://` URL with a
nonempty host. -/
def isValidHttpUrl (s : List Char) : Bool :=
  match schemeSplit s with
  | some (_, rest) => !(hostPart rest).isEmpty
  | none => false

/-- The `origin` property of a parsed URL: scheme plus `//` plus host, no
path or query. -/
def urlOrigin (s : List Char) : List Char :=
  match schemeSplit s with
  | some (scheme, rest) => scheme ++ str "//" ++ hostPart rest
  | none => []

/-- `new URL(s)` with a single argument: succeeds only on an absolute URL
(a relative reference has no scheme and throws `TypeError: Invalid URL`).
The parsed object is represented by its serialization, here the validated
input string itself. -/
def jsURLParse (s : List Char) : Except (List Char) (List Char) :=
  if isValidHttpUrl s then Except.ok s else Except.error (str "Invalid URL")

/-- Header lists: pairs of name and value. -/
abbrev Hdrs := List (List Char × List Char)

/-- Iterating a `Headers` object (`[...headers]`) yields its entries with
ASCII-lowercased names. -/
def headersIter (hs : Hdrs) : Hdrs := hs.map (fun p => (lowerStr p.1, p.2))

/-- Entries of a header list matching a name, case-insensitively. -/
def filterByName (hs : Hdrs) (n : List Char) : Hdrs :=
  hs.filter (fun p => lowerStr p.1 == n)

/-- Comma-space join of header values, as `Headers.get` combines them. -/
def joinValues (v : List Char) (vs : List (List Char)) : List Char :=
  match vs with
  | [] => v
  | w :: ws => v ++ str ", " ++ joinValues w ws

/-- `Headers.get(name)`: `null` when absent, otherwise the values of all
matching entries joined with a comma and a space. -/
def headersGet (hs : Hdrs) (name : List Char) : Option (List Char) :=
  match filterByName hs (lowerStr name) with
  | [] => none
  | p :: rest => some (joinValues p.2 (rest.map (fun q => q.2)))

/-- Number of entries of a header list carrying a name, case-insensitively. -/
def headerCount (hs : Hdrs) (name : List Char) : Nat :=
  (filterByName hs (lowerStr name)).length

/-- `Headers.set` on a list whose insertion name is already lowercased: replace
the value of the first matching entry, delete the other matching entries, or
append when the name is absent. -/
def headerSetGo (n v : List Char) : Hdrs → Hdrs
  | [] => [(n, v)]
  | p :: rest =>
    if lowerStr p.1 == n then (n, v) :: rest.filter (fun q => !(lowerStr q.1 == n))
    else p :: headerSetGo n v rest

/-- `headers.set(name, value)`. -/
def headerSet (hs : Hdrs) (name value : List Char) : Hdrs :=
  headerSetGo (lowerStr name) value hs

/-- Building a `Headers` from a literal object or list normalizes the names to
lowercase. -/
def mkRespHeaders (hs : Hdrs) : Hdrs := headersIter hs

/-- Parsed components of the inbound request URL (`new URL(request.url)`):
`protocol` keeps its trailing colon, `pathname` starts with `/`, `search` is
empty or starts with `?`, exactly as in the URL API. -/
structure URLParts where
  protocol : List Char
  host : List Char
  pathname : List Char
  search : List Char
deriving DecidableEq

/-- The inbound request as the worker observes it. -/
structure Request where
  url : URLParts
  method : List Char
  headers : Hdrs
  body : List Char
deriving DecidableEq

/-- The outbound request handed to the transport (`new Request(actualUrlStr,
{headers, method, body, redirect: 'manual'})`). -/
structure OutboundRequest where
  url : List Char
  method : List Char
  headers : Hdrs
  body : List Char
  redirect : List Char
deriving DecidableEq

/-- An HTTP response: status, status text, headers, body. -/
structure Response where
  status : Nat
  statusText : List Char
  headers : Hdrs
  body : List Char
deriving DecidableEq

/-- ensureProtocol from src/index.js: return the string unchanged when it
already starts with `http://` or `https://` (a case-sensitive check),
otherwise prepend the default protocol (which carries its trailing colon,
like `url.protocol`) and `//`. -/
def ensureProtocol (url : List Char) (defaultProtocol : List Char) : List Char :=
  if beginsWith url (str "http://") || beginsWith url (str "https://") then url
  else defaultProtocol ++ str "//" ++ url

/-- getRootHtml from src/index.js, abbreviated: the landing page is a fixed
HTML literal whose content is never inspected by the pipeline and plays no
role in any claim; only the fact that the root path returns it with a
`text/html` content type is observable here. -/
def getRootHtml : List Char := str "<!DOCTYPE html>"

/-- JSON.stringify string escaping of one character: quote, backslash and
control characters are escaped, everything else is copied. -/
def jsonEscapeChar (c : Char) : List Char :=
  if c.toNat == 34 then [Char.ofNat 92, Char.ofNat 34]
  else if c.toNat == 92 then [Char.ofNat 92, Char.ofNat 92]
  else if c == '\n' then [Char.ofNat 92, 'n']
  else if c == '\r' then [Char.ofNat 92, 'r']
  else if c == '\t' then [Char.ofNat 92, 't']
  else if c.toNat == 8 then [Char.ofNat 92, 'b']
  else if c.toNat == 12 then [Char.ofNat 92, 'f']
  else if c.toNat < 32 then
    [Char.ofNat 92, 'u', '0', '0', hexDigitL (c.toNat / 16), hexDigitL (c.toNat % 16)]
  else [c]

/-- JSON.stringify string escaping. -/
def jsonEscape (s : List Char) : List Char := s.flatMap jsonEscapeChar

/-- The serialized body produced by the catch block: JSON.stringify applied to
an object with the single key `error` holding the message. -/
def stringifyErrorObj (msg : List Char) : List Char :=
  str "\x7b\"error\":\"" ++ jsonEscape msg ++ str "\"\x7d"

/-- jsonResponse from src/index.js: a response with the given body and status
and the single header `Content-Type: application/json; charset=utf-8`. -/
def jsonResponse (data : List Char) (status : Nat) : Response :=
  Response.mk status [] (mkRespHeaders [(str "Content-Type", str "application/json; charset=utf-8")]) data

/-- filterHeaders from src/index.js: spread the headers (iteration lowercases
the names), keep the entries whose name satisfies the predicate, and build a
new `Headers` from them. -/
def filterHeaders (headers : Hdrs) (filterFunc : List Char → Bool) : Hdrs :=
  (headersIter headers).filter (fun p => filterFunc p.1)

/-- The predicate passed to filterHeaders at the call site in fetch:
drop every name starting with `cf-`. -/
def cfPred : List Char → Bool := fun name => !(beginsWith name (str "cf-"))

/-- setNoCacheHeaders from src/index.js. -/
def setNoCacheHeaders (headers : Hdrs) : Hdrs :=
  headerSet headers (str "Cache-Control") (str "no-store")

/-- setCorsHeaders from src/index.js. -/
def setCorsHeaders (headers : Hdrs) : Hdrs :=
  headerSet
    (headerSet
      (headerSet headers (str "Access-Control-Allow-Origin") (str "*"))
      (str "Access-Control-Allow-Methods") (str "GET, POST, PUT, DELETE"))
    (str "Access-Control-Allow-Headers") (str "*")

/-- handleRedirect from src/index.js. `new URL(location)` receives no base
argument, so a relative `Location` value (or an absent one, which stringifies
to `"null"`) throws `Invalid URL` and propagates to the top-level catch. The
object spread of `response.headers` contributes nothing, because a `Headers`
instance has no own enumerable properties, so the headers of the constructed
response consist of the `Location` entry alone. -/
def handleRedirect (response : Response) (body : List Char) : Except (List Char) Response :=
  match headersGet response.headers (str "location") with
  | none => Except.error (str "Invalid URL")
  | some locRaw =>
    match jsURLParse locRaw with
    | Except.error e => Except.error e
    | Except.ok location =>
      Except.ok (Response.mk response.status response.statusText
        (mkRespHeaders [(str "Location", '/' :: encodeURIComponent location)]) body)

/-- Is the character a double or single quote, the quote class of the rewrite
regular expression? -/
def isQuoteCh (c : Char) : Bool := c.toNat == 34 || c.toNat == 39

/-- Does the string start with a slash? This is the negative lookahead of the
rewrite regular expression, which rejects protocol-relative `//` references. -/
def startsSlash : List Char → Bool
  | '/' :: _ => true
  | _ => false

/-- Global replacement of the regular expression
`((href|src|action)=["'])/(?!/)` with `$1` followed by `repl`: scan left to
right; at a position where an attribute name, `=`, a quote and a single `/`
not followed by another `/` occur, emit the attribute, `=`, the quote and
`repl` in place of the `/` and resume after the `/`; otherwise copy one
character and continue. -/
def rrpGo (repl : List Char) : List Char → List Char
  | [] => []
  | 'h' :: 'r' :: 'e' :: 'f' :: '=' :: q :: '/' :: rest =>
    if isQuoteCh q && !startsSlash rest then
      str "href=" ++ q :: repl ++ rrpGo repl rest
    else 'h' :: rrpGo repl ('r' :: 'e' :: 'f' :: '=' :: q :: '/' :: rest)
  | 's' :: 'r' :: 'c' :: '=' :: q :: '/' :: rest =>
    if isQuoteCh q && !startsSlash rest then
      str "src=" ++ q :: repl ++ rrpGo repl rest
    else 's' :: rrpGo repl ('r' :: 'c' :: '=' :: q :: '/' :: rest)
  | 'a' :: 'c' :: 't' :: 'i' :: 'o' :: 'n' :: '=' :: q :: '/' :: rest =>
    if isQuoteCh q && !startsSlash rest then
      str "action=" ++ q :: repl ++ rrpGo repl rest
    else 'a' :: rrpGo repl ('c' :: 't' :: 'i' :: 'o' :: 'n' :: '=' :: q :: '/' :: rest)
  | c :: rest => c :: rrpGo repl rest

/-- replaceRelativePaths from src/index.js: the template replacement string is
`$1` followed by the protocol (carrying its colon), `//`, the host, `/`, the
origin and `/`. -/
def replaceRelativePaths (text protocol host origin : List Char) : List Char :=
  rrpGo (protocol ++ str "//" ++ host ++ str "/" ++ origin ++ str "/") text

/-- handleHtmlContent from src/index.js: buffer the body as text and rewrite
relative paths against the origin of the target URL; `new URL(actualUrlStr)`
can throw, propagating to the top-level catch. -/
def handleHtmlContent (response : Response) (protocol host : List Char)
    (actualUrlStr : List Char) : Except (List Char) (List Char) :=
  match jsURLParse actualUrlStr with
  | Except.error e => Except.error e
  | Except.ok u => Except.ok (replaceRelativePaths response.body protocol host (urlOrigin u))

/-- JavaScript `String.prototype.replace` with a plain-string pattern: replace
the first occurrence only. -/
def jsReplaceFirst : List Char → List Char → List Char → List Char
  | [], pat, repl => if pat.isEmpty then repl else []
  | c :: rest, pat, repl =>
    if beginsWith (c :: rest) pat then repl ++ (c :: rest).drop pat.length
    else c :: jsReplaceFirst rest pat repl

/-- Lines 16 through 22 of src/index.js: percent-decode the pathname with its
first slash removed (JavaScript `replace` with a string pattern replaces only
the first occurrence), default the protocol, and append the query string. -/
def resolveTarget (url : URLParts) : Except (List Char) (List Char) :=
  match decodeURIComponent (jsReplaceFirst url.pathname (str "/") []) with
  | Except.error e => Except.error e
  | Except.ok decoded => Except.ok (ensureProtocol decoded url.protocol ++ url.search)

/-- `new Request(actualUrlStr, {headers, method, body, redirect: 'manual'})`:
validates the URL (throwing `Invalid URL` otherwise) and packages the outbound
request. -/
def mkRequest (urlStr : List Char) (headers : Hdrs) (method body : List Char) :
    Except (List Char) OutboundRequest :=
  if isValidHttpUrl urlStr then
    Except.ok (OutboundRequest.mk urlStr method headers body (str "manual"))
  else Except.error (str "Invalid URL")

/-- The redirect statuses checked by fetch in src/index.js. -/
def redirectStatuses : List Nat := [301, 302, 303, 307, 308]

/-- The HTML test of fetch in src/index.js:
`response.headers.get('Content-Type')?.includes('text/html')` — a
case-insensitive header lookup followed by a case-sensitive substring test of
the value. -/
def htmlContentType (response : Response) : Bool :=
  match headersGet response.headers (str "Content-Type") with
  | some ct => containsSub ct (str "text/html")
  | none => false

/-- The common tail of the success path in fetch: rebuild the response with
the chosen body and the upstream status, status text and headers, then apply
setNoCacheHeaders and setCorsHeaders. -/
def finalize (response : Response) (body : List Char) : Response :=
  Response.mk response.status response.statusText
    (setCorsHeaders (setNoCacheHeaders response.headers)) body

/-- The response returned for the root path. -/
def rootResponse : Response :=
  Response.mk 200 [] (mkRespHeaders [(str "Content-Type", str "text/html; charset=utf-8")]) getRootHtml

/-- The body of the fetch handler of src/index.js up to the catch: the value
is the response on success or the thrown message on failure. The upstream
transport (`fetch`) is a parameter; it may fail with an arbitrary message
(network errors). -/
def fetchPipeline (request : Request)
    (upstream : OutboundRequest → Except (List Char) Response) :
    Except (List Char) Response :=
  if request.url.pathname == str "/" then Except.ok rootResponse
  else
    match resolveTarget request.url with
    | Except.error e => Except.error e
    | Except.ok actualUrlStr =>
      let newHeaders := filterHeaders request.headers cfPred
      match mkRequest actualUrlStr newHeaders request.method request.body with
      | Except.error e => Except.error e
      | Except.ok modifiedRequest =>
        match upstream modifiedRequest with
        | Except.error e => Except.error e
        | Except.ok response =>
          if redirectStatuses.contains response.status then
            handleRedirect response response.body
          else if htmlContentType response then
            match handleHtmlContent response request.url.protocol request.url.host actualUrlStr with
            | Except.error e => Except.error e
            | Except.ok body => Except.ok (finalize response body)
          else Except.ok (finalize response response.body)

/-- The complete fetch handler: the pipeline wrapped in the single top-level
try/catch, whose catch returns the 500 JSON error envelope built from the
message of the thrown error. -/
def fetchHandler (request : Request)
    (upstream : OutboundRequest → Except (List Char) Response) : Response :=
  match fetchPipeline request upstream with
  | Except.ok r => r
  | Except.error e => jsonResponse (stringifyErrorObj e) 500

/-- The three response classes of the rewriting stage. -/
inductive BranchClass
  | redirect
  | html
  | passthrough
deriving DecidableEq

/-- The classification implied by the if/else-if/else chain of fetch:
redirect status first, then the HTML content-type test, then passthrough. -/
def classifyResponse (r : Response) : BranchClass :=
  if redirectStatuses.contains r.status then BranchClass.redirect
  else if htmlContentType r then BranchClass.html
  else BranchClass.passthrough

/-- The attribute names of the HTML rewrite rule, as the specification lists
them. -/
def specAttrs : List (List Char) := [str "href", str "src", str "action"]

/-- Claim-side formulation of one match of the rewrite rule, written from the
specification text: an occurrence of one of the attributes immediately
followed by `=`, a quote character and a single leading `/` not followed by a
second `/`; returns the attribute-equals-quote part and the text after the
slash. -/
def specMatchAt (s : List Char) : Option (List Char × List Char) :=
  specAttrs.findSome? (fun a =>
    if beginsWith s a then
      match s.drop a.length with
      | e :: q :: sl :: rest =>
        if e == '=' && isQuoteCh q && sl == '/' && !startsSlash rest then
          some (a ++ ['=', q], rest)
        else none
      | _ => none
    else none)

/-- Claim-side scan of the rewrite rule, fuelled by the text length: find each
match left to right and replace its leading slash with the replacement
string. -/
def specRewriteFuel (repl : List Char) : Nat → List Char → List Char
  | _, [] => []
  | 0, s => s
  | fuel + 1, c :: rest =>
    match specMatchAt (c :: rest) with
    | some (g1, next) => g1 ++ repl ++ specRewriteFuel repl fuel next
    | none => c :: specRewriteFuel repl fuel rest

/-- Claim-side formulation of replaceRelativePaths, built from the
specification sentence: replace the leading `/` of every matching occurrence
with the inbound scheme, `//`, the inbound host, `/`, the target origin and
`/`. -/
def specRelativeRewrite (text protocol host origin : List Char) : List Char :=
  specRewriteFuel (protocol ++ str "//" ++ host ++ str "/" ++ origin ++ str "/")
    text.length text

/-- Claim-side scanner of a JSON string body: consume characters until the
closing unescaped quote, undoing the escapes, and return the decoded string
together with the remainder after the quote. -/
def envScanString : List Char → Option (List Char × List Char)
  | [] => none
  | c :: rest =>
    if c.toNat == 34 then some ([], rest)
    else if c.toNat == 92 then
      match rest with
      | [] => none
      | e :: rest2 =>
        if e.toNat == 34 then (envScanString rest2).map (fun p => (Char.ofNat 34 :: p.1, p.2))
        else if e.toNat == 92 then (envScanString rest2).map (fun p => (Char.ofNat 92 :: p.1, p.2))
        else if e == 'n' then (envScanString rest2).map (fun p => ('\n' :: p.1, p.2))
        else if e == 'r' then (envScanString rest2).map (fun p => ('\r' :: p.1, p.2))
        else if e == 't' then (envScanString rest2).map (fun p => ('\t' :: p.1, p.2))
        else if e == 'b' then (envScanString rest2).map (fun p => (Char.ofNat 8 :: p.1, p.2))
        else if e == 'f' then (envScanString rest2).map (fun p => (Char.ofNat 12 :: p.1, p.2))
        else if e == 'u' then
          match rest2 with
          | h1 :: h2 :: h3 :: h4 :: rest3 =>
            match hexVal h1, hexVal h2, hexVal h3, hexVal h4 with
            | some a, some b2, some c3, some d =>
              (envScanString rest3).map
                (fun p => (Char.ofNat (a * 4096 + b2 * 256 + c3 * 16 + d) :: p.1, p.2))
            | _, _, _, _ => none
          | _ => none
        else none
    else (envScanString rest).map (fun p => (c :: p.1, p.2))

/-- Claim-side parser of the error envelope: accepts exactly a JSON object
with the single key `error` holding a string, and returns the decoded
message. -/
def envParse (body : List Char) : Option (List Char) :=
  if beginsWith body (str "\x7b\"error\":\"") then
    match envScanString (body.drop 10) with
    | some (msg, rest) => if rest == [Char.ofNat 125] then some msg else none
    | none => none
  else none

theorem charOfNat_toNat {n : Nat} (h : n < 55296) : (Char.ofNat n).toNat = n := by
  have hv : Nat.isValidChar n := Or.inl h
  rw [Char.ofNat, dif_pos hv]
  rfl

theorem toLower_idem (c : Char) : Char.toLower (Char.toLower c) = Char.toLower c := by
  unfold Char.toLower
  by_cases h : c.toNat ≥ 65 ∧ c.toNat ≤ 90
  · rw [if_pos h, if_neg]
    rw [charOfNat_toNat (by omega)]
    omega
  · rw [if_neg h, if_neg h]

theorem lowerStr_idem (s : List Char) : lowerStr (lowerStr s) = lowerStr s := by
  simp [lowerStr, toLower_idem]

theorem beginsWith_append (p t : List Char) : beginsWith (p ++ t) p = true := by
  induction p with
  | nil => cases t <;> rfl
  | cons c cs ih => simp [beginsWith, ih]

theorem beginsWith_exists {s p : List Char} (h : beginsWith s p = true) :
    ∃ t, s = p ++ t := by
  induction p generalizing s with
  | nil => exact ⟨s, rfl⟩
  | cons c cs ih =>
    cases s with
    | nil => simp [beginsWith] at h
    | cons d ds =>
      simp only [beginsWith, Bool.and_eq_true, beq_iff_eq] at h
      obtain ⟨t, ht⟩ := ih h.2
      exact ⟨t, by simp [h.1, ht]⟩

theorem jsReplaceFirst_leading_slash (t : List Char) :
    jsReplaceFirst ('/' :: t) (str "/") [] = t := by
  have hs : str "/" = ['/'] := rfl
  rw [jsReplaceFirst, hs]
  simp [beginsWith]

theorem isValidHttpUrl_beginsWith {s : List Char} (h : isValidHttpUrl s = true) :
    (beginsWith s (str "http://") || beginsWith s (str "https://")) = true := by
  unfold isValidHttpUrl schemeSplit at h
  by_cases h1 : beginsWith s (str "http://") = true
  · simp [h1]
  · by_cases h2 : beginsWith s (str "https://") = true
    · simp [h2]
    · simp [h1, h2] at h

theorem ensureProtocol_of_valid {s : List Char} (p : List Char)
    (h : isValidHttpUrl s = true) : ensureProtocol s p = s := by
  unfold ensureProtocol
  rw [if_pos (isValidHttpUrl_beginsWith h)]

set_option maxRecDepth 8000 in
theorem hexRoundU : ∀ b : Nat, b < 256 →
    hexVal (hexDigitU (b / 16)) = some (b / 16) ∧ hexVal (hexDigitU (b % 16)) = some (b % 16) := by
  decide

theorem isUnreservedChar_ne_pct {c : Char} (h : isUnreservedChar c = true) :
    (c == '%') = false := by
  by_cases hc : c = '%'
  · subst hc
    exact absurd h (by decide)
  · simp [hc]

theorem pctTokens_encodeChar_unres {c : Char} (rest : List Char)
    (h : isUnreservedChar c = true) :
    pctTokens (encodeChar c ++ rest) =
      (pctTokens rest).map (fun ts => DecTok.raw c :: ts) := by
  rw [encodeChar, if_pos h]
  rw [List.cons_append, List.nil_append, pctTokens.eq_def]
  simp only [isUnreservedChar_ne_pct h]
  simp

theorem pctTokens_encodeChar_res {c : Char} (rest : List Char)
    (hres : isUnreservedChar c = false) (hascii : c.toNat < 128) :
    pctTokens (encodeChar c ++ rest) =
      (pctTokens rest).map (fun ts => DecTok.esc c.toNat :: ts) := by
  rw [encodeChar, if_neg (by simp [hres])]
  rw [utf8Bytes, if_pos hascii]
  have hb := hexRoundU c.toNat (by omega)
  simp only [List.flatMap_cons, List.flatMap_nil, List.append_nil, pctByte]
  rw [List.cons_append, List.cons_append, List.cons_append, List.nil_append, pctTokens.eq_def]
  simp only [beq_self_eq_true, if_true, hb.1, hb.2]
  have hdm : c.toNat / 16 * 16 + c.toNat % 16 = c.toNat := by omega
  simp [hdm]

theorem utf8Assemble_raw (c : Char) (ts : List DecTok) :
    utf8Assemble (DecTok.raw c :: ts) = (utf8Assemble ts).map (fun cs => c :: cs) := rfl

theorem utf8Assemble_ascii {b : Nat} (ts : List DecTok) (h : b < 128) :
    utf8Assemble (DecTok.esc b :: ts) = (utf8Assemble ts).map (fun cs => Char.ofNat b :: cs) := by
  unfold utf8Assemble
  rw [asmGo.eq_def]
  simp only [if_pos h]

theorem decode_eq_ok_iff (s t : List Char) :
    decodeURIComponent s = Except.ok t ↔ (pctTokens s).bind utf8Assemble = some t := by
  unfold decodeURIComponent
  rcases h : (pctTokens s).bind utf8Assemble with _ | cs <;> simp [h]

theorem decode_encode_ascii : ∀ s : List Char, allAscii s = true →
    decodeURIComponent (encodeURIComponent s) = Except.ok s := by
  intro s hs
  induction s with
  | nil => rfl
  | cons c rest ih =>
    simp only [allAscii, List.all_cons, Bool.and_eq_true, decide_eq_true_eq] at hs
    have ihr := ih (by simp [allAscii, hs.2])
    rw [decode_eq_ok_iff] at ihr ⊢
    rw [encodeURIComponent]
    rcases hpt : pctTokens (encodeURIComponent rest) with _ | ts
    · rw [hpt] at ihr
      simp at ihr
    · rw [hpt] at ihr
      simp only [Option.some_bind] at ihr
      by_cases hu : isUnreservedChar c = true
      · rw [pctTokens_encodeChar_unres _ hu, hpt]
        simp only [Option.map_some', Option.some_bind]
        rw [utf8Assemble_raw, ihr]
        rfl
      · rw [pctTokens_encodeChar_res _ (by simpa using hu) hs.1, hpt]
        simp only [Option.map_some', Option.some_bind]
        rw [utf8Assemble_ascii _ hs.1, ihr]
        simp [Char.ofNat_toNat]

theorem filter_not_name_name (l : Hdrs) (n : List Char) :
    (l.filter (fun q => !(lowerStr q.1 == n))).filter (fun q => lowerStr q.1 == n) = [] := by
  induction l with
  | nil => rfl
  | cons p rest ih =>
    by_cases h : (lowerStr p.1 == n) = true
    · simp [List.filter, h, ih]
    · simp only [Bool.not_eq_true] at h
      simp [List.filter, h, ih]

theorem filter_not_name_other (l : Hdrs) (n m : List Char) (hnm : (n == m) = false) :
    (l.filter (fun q => !(lowerStr q.1 == n))).filter (fun q => lowerStr q.1 == m) =
      l.filter (fun q => lowerStr q.1 == m) := by
  induction l with
  | nil => rfl
  | cons p rest ih =>
    by_cases h : (lowerStr p.1 == n) = true
    · have hm : (lowerStr p.1 == m) = false := by
        rw [beq_iff_eq] at h
        rw [h]
        exact hnm
      simp [List.filter, h, hm, ih]
    · simp only [Bool.not_eq_true] at h
      simp [List.filter, h, ih]

theorem filterByName_setGo_self (hs : Hdrs) (n v : List Char) (hn : lowerStr n = n) :
    filterByName (headerSetGo n v hs) n = [(n, v)] := by
  induction hs with
  | nil =>
    simp [headerSetGo, filterByName, List.filter, hn]
  | cons p rest ih =>
    by_cases h : (lowerStr p.1 == n) = true
    · rw [headerSetGo, if_pos h]
      unfold filterByName
      simp only [List.filter, hn, beq_self_eq_true]
      have := filter_not_name_name rest n
      simp [this]
    · rw [headerSetGo, if_neg (by simp [h])]
      unfold filterByName at ih ⊢
      simp only [List.filter, h]
      exact ih

theorem filterByName_setGo_other (hs : Hdrs) (n v m : List Char) (hn : lowerStr n = n)
    (hnm : (n == m) = false) :
    filterByName (headerSetGo n v hs) m = filterByName hs m := by
  induction hs with
  | nil =>
    simp [headerSetGo, filterByName, List.filter, hn, hnm]
  | cons p rest ih =>
    by_cases h : (lowerStr p.1 == n) = true
    · rw [headerSetGo, if_pos h]
      unfold filterByName
      simp only [List.filter, hn, hnm]
      have h2 := filter_not_name_other rest n m hnm
      have hm : (lowerStr p.1 == m) = false := by
        rw [beq_iff_eq] at h
        rw [h]
        exact hnm
      simp [hm, h2]
    · rw [headerSetGo, if_neg (by simp [h])]
      unfold filterByName at ih ⊢
      by_cases hm : (lowerStr p.1 == m) = true
      · simp [List.filter, hm, ih]
      · simp only [Bool.not_eq_true] at hm
        simp [List.filter, hm, ih]

theorem headersGet_set_self (hs : Hdrs) (name v : List Char) :
    headersGet (headerSet hs name v) name = some v := by
  unfold headersGet headerSet
  rw [filterByName_setGo_self hs (lowerStr name) v (lowerStr_idem name)]
  rfl

theorem headersGet_set_other (hs : Hdrs) (name v other : List Char)
    (h : (lowerStr name == lowerStr other) = false) :
    headersGet (headerSet hs name v) other = headersGet hs other := by
  unfold headersGet headerSet
  rw [filterByName_setGo_other hs (lowerStr name) v (lowerStr other) (lowerStr_idem name) h]

theorem headerCount_set_self (hs : Hdrs) (name v : List Char) :
    headerCount (headerSet hs name v) name = 1 := by
  unfold headerCount headerSet
  rw [filterByName_setGo_self hs (lowerStr name) v (lowerStr_idem name)]
  rfl

theorem headerCount_set_other (hs : Hdrs) (name v other : List Char)
    (h : (lowerStr name == lowerStr other) = false) :
    headerCount (headerSet hs name v) other = headerCount hs other := by
  unfold headerCount headerSet
  rw [filterByName_setGo_other hs (lowerStr name) v (lowerStr other) (lowerStr_idem name) h]

/-- C3: for every inbound request with a non-root path, the resolved target
URL equals the percent-decoded path after the leading slash, used as-is when
it already begins with `http://` or `https://` and otherwise prefixed with
the inbound scheme plus `//`, with the inbound query string appended verbatim
exactly once; and the upstream request issued by the pipeline carries exactly
this URL (observed through an upstream that echoes its URL back as the
response body). -/
theorem claim_C3_resolution (u : URLParts) (restPath d t : List Char)
    (hpath : u.pathname = '/' :: restPath)
    (hroot : (u.pathname == str "/") = false)
    (hdec : decodeURIComponent restPath = Except.ok d)
    (ht : t = (if beginsWith d (str "http://") || beginsWith d (str "https://") then d
          else u.protocol ++ str "//" ++ d) ++ u.search) :
    resolveTarget u = Except.ok t ∧
    (∀ m b hs, isValidHttpUrl t = true →
      fetchPipeline (Request.mk u m hs b) (fun o => Except.ok (Response.mk 200 [] [] o.url)) =
        Except.ok (Response.mk 200 [] (setCorsHeaders (setNoCacheHeaders [])) t)) := by
  have hres : resolveTarget u = Except.ok t := by
    unfold resolveTarget
    rw [hpath, jsReplaceFirst_leading_slash, hdec]
    rw [ht]
    rfl
  refine ⟨hres, ?_⟩
  intro m b hs hvalid
  unfold fetchPipeline
  rw [if_neg (by simp [hroot])]
  rw [hres]
  dsimp only
  unfold mkRequest
  rw [if_pos hvalid]
  dsimp only
  rw [if_neg (by decide)]
  have hct : htmlContentType (Response.mk 200 [] [] t) = false := rfl
  rw [if_neg (by simp [hct])]
  rfl

/-- Witness for C3 at the concrete request `/example.com/a?x=1` over `https:`,
matching the scheme-default and query-preservation test of the
specification. -/
theorem claim_C3_witness :
    resolveTarget (URLParts.mk (str "https:") (str "proxy.test") (str "/example.com/a") (str "?x=1")) =
      Except.ok (str "https://example.com/a?x=1") ∧
    fetchPipeline
        (Request.mk (URLParts.mk (str "https:") (str "proxy.test") (str "/example.com/a") (str "?x=1"))
          (str "GET") [] [])
        (fun o => Except.ok (Response.mk 200 [] [] o.url)) =
      Except.ok (Response.mk 200 [] (setCorsHeaders (setNoCacheHeaders []))
        (str "https://example.com/a?x=1")) := by
  have h := claim_C3_resolution
    (URLParts.mk (str "https:") (str "proxy.test") (str "/example.com/a") (str "?x=1"))
    (str "example.com/a") (str "example.com/a") (str "https://example.com/a?x=1")
    rfl (by decide) rfl (by decide)
  exact ⟨h.1, h.2 (str "GET") [] [] (by decide)⟩

/-- C9: scheme detection in ensureProtocol is case-sensitive: a decoded path
beginning with an uppercase or mixed-case scheme variant (its lowercase form
begins with `http://` or `https://`) that does not literally begin with
`http://` or `https://` gets the inbound scheme plus `//` prefixed anyway. -/
theorem claim_C9_case_sensitive (s proto : List Char)
    (_hcase : (beginsWith (lowerStr s) (str "http://") ||
      beginsWith (lowerStr s) (str "https://")) = true)
    (h1 : beginsWith s (str "http://") = false)
    (h2 : beginsWith s (str "https://") = false) :
    ensureProtocol s proto = proto ++ str "//" ++ s := by
  unfold ensureProtocol
  rw [h1, h2]
  simp

/-- Witness for C9: `HTTP://example.com` over an `https:` inbound request
resolves to `https://HTTP://example.com`. -/
theorem claim_C9_witness :
    ensureProtocol (str "HTTP://example.com") (str "https:") = str "https://HTTP://example.com" := by
  have h := claim_C9_case_sensitive (str "HTTP://example.com") (str "https:")
    (by decide) (by decide) (by decide)
  exact h.trans (by decide)

/-- C10: for every inbound non-root path whose percent-decoding fails, no
outbound request is issued (the handler result does not depend on the
upstream at all) and the caller receives the uniform 500 JSON error
envelope. -/
theorem claim_C10_malformed_escape (req : Request)
    (up1 up2 : OutboundRequest → Except (List Char) Response) (msg : List Char)
    (hroot : (req.url.pathname == str "/") = false)
    (hdec : decodeURIComponent (jsReplaceFirst req.url.pathname (str "/") []) =
      Except.error msg) :
    fetchHandler req up1 = fetchHandler req up2 ∧
    fetchHandler req up1 = jsonResponse (stringifyErrorObj msg) 500 := by
  have hrt : resolveTarget req.url = Except.error msg := by
    unfold resolveTarget
    rw [hdec]
  have hp : ∀ up, fetchPipeline req up = Except.error msg := by
    intro up
    unfold fetchPipeline
    rw [if_neg (by simp [hroot])]
    rw [hrt]
  constructor
  · unfold fetchHandler
    rw [hp up1, hp up2]
  · unfold fetchHandler
    rw [hp up1]

/-- Witness for C10 at the path `/%zz`: two arbitrarily different upstreams
produce the same 500 envelope with the `URI malformed` message. -/
theorem claim_C10_witness :
    fetchHandler (Request.mk (URLParts.mk (str "https:") (str "h.test") (str "/%zz") [])
        (str "GET") [] [])
      (fun _ => Except.ok (Response.mk 200 [] [] (str "B"))) =
    fetchHandler (Request.mk (URLParts.mk (str "https:") (str "h.test") (str "/%zz") [])
        (str "GET") [] [])
      (fun _ => Except.error (str "boom")) ∧
    fetchHandler (Request.mk (URLParts.mk (str "https:") (str "h.test") (str "/%zz") [])
        (str "GET") [] [])
      (fun _ => Except.ok (Response.mk 200 [] [] (str "B"))) =
     jsonResponse (stringifyErrorObj (str "URI malformed")) 500 :=
  claim_C10_malformed_escape
    (Request.mk (URLParts.mk (str "https:") (str "h.test") (str "/%zz") []) (str "GET") [] [])
    (fun _ => Except.ok (Response.mk 200 [] [] (str "B")))
    (fun _ => Except.error (str "boom"))
    (str "URI malformed") (by decide) rfl

set_option maxRecDepth 8000 in
theorem hexRoundL : ∀ n : Nat, n < 32 →
    hexVal (hexDigitL (n / 16)) = some (n / 16) ∧ hexVal (hexDigitL (n % 16)) = some (n % 16) := by
  decide

theorem envScan_plain (c : Char) (xs : List Char) (h34 : (c.toNat == 34) = false)
    (h92 : (c.toNat == 92) = false) :
    envScanString (c :: xs) = (envScanString xs).map (fun p => (c :: p.1, p.2)) := by
  rw [envScanString.eq_def]
  simp [h34, h92]

theorem envScan_quote (xs : List Char) :
    envScanString (Char.ofNat 34 :: xs) = some ([], xs) := by
  rw [envScanString.eq_def]
  simp

theorem envScan_esc_quote (xs : List Char) :
    envScanString (Char.ofNat 92 :: Char.ofNat 34 :: xs) =
      (envScanString xs).map (fun p => (Char.ofNat 34 :: p.1, p.2)) := by
  rw [envScanString.eq_def]
  simp

theorem envScan_esc_bs (xs : List Char) :
    envScanString (Char.ofNat 92 :: Char.ofNat 92 :: xs) =
      (envScanString xs).map (fun p => (Char.ofNat 92 :: p.1, p.2)) := by
  rw [envScanString.eq_def]
  simp

theorem envScan_esc_n (xs : List Char) :
    envScanString (Char.ofNat 92 :: 'n' :: xs) =
      (envScanString xs).map (fun p => ('\n' :: p.1, p.2)) := by
  rw [envScanString.eq_def]
  simp

theorem envScan_esc_r (xs : List Char) :
    envScanString (Char.ofNat 92 :: 'r' :: xs) =
      (envScanString xs).map (fun p => ('\r' :: p.1, p.2)) := by
  rw [envScanString.eq_def]
  simp

theorem envScan_esc_t (xs : List Char) :
    envScanString (Char.ofNat 92 :: 't' :: xs) =
      (envScanString xs).map (fun p => ('\t' :: p.1, p.2)) := by
  rw [envScanString.eq_def]
  simp

theorem envScan_esc_b (xs : List Char) :
    envScanString (Char.ofNat 92 :: 'b' :: xs) =
      (envScanString xs).map (fun p => (Char.ofNat 8 :: p.1, p.2)) := by
  rw [envScanString.eq_def]
  simp

theorem envScan_esc_f (xs : List Char) :
    envScanString (Char.ofNat 92 :: 'f' :: xs) =
      (envScanString xs).map (fun p => (Char.ofNat 12 :: p.1, p.2)) := by
  rw [envScanString.eq_def]
  simp

theorem envScan_esc_u (c : Char) (xs : List Char) (h : c.toNat < 32) :
    envScanString (Char.ofNat 92 :: 'u' :: '0' :: '0' ::
        hexDigitL (c.toNat / 16) :: hexDigitL (c.toNat % 16) :: xs) =
      (envScanString xs).map (fun p => (c :: p.1, p.2)) := by
  have hr := hexRoundL c.toNat h
  rw [envScanString.eq_def]
  simp only [hr.1, hr.2]
  have hz : hexVal '0' = some 0 := by decide
  simp only [hz]
  have hc : c.toNat / 16 * 16 + c.toNat % 16 = c.toNat := by omega
  simp [hc, Char.ofNat_toNat]

theorem envScan_append (t : List Char) : ∀ msg : List Char,
    envScanString (jsonEscape msg ++ Char.ofNat 34 :: t) = some (msg, t) := by
  intro msg
  induction msg with
  | nil => simpa using envScan_quote t
  | cons c rest ih =>
    have hfl : jsonEscape (c :: rest) = jsonEscapeChar c ++ jsonEscape rest := by
      simp [jsonEscape]
    rw [hfl, List.append_assoc]
    by_cases h34 : (c.toNat == 34) = true
    · have hc : c = Char.ofNat 34 := by
        rw [beq_iff_eq] at h34
        rw [← h34, Char.ofNat_toNat]
      rw [jsonEscapeChar, if_pos h34]
      rw [List.cons_append, List.cons_append, List.nil_append, envScan_esc_quote, ih]
      simp [hc]
    · by_cases h92 : (c.toNat == 92) = true
      · have hc : c = Char.ofNat 92 := by
          rw [beq_iff_eq] at h92
          rw [← h92, Char.ofNat_toNat]
        rw [jsonEscapeChar, if_neg (by simp [h34]), if_pos h92]
        rw [List.cons_append, List.cons_append, List.nil_append, envScan_esc_bs, ih]
        simp [hc]
      · by_cases hn : (c == '\n') = true
        · have hcn : c = '\n' := by rwa [beq_iff_eq] at hn
          rw [jsonEscapeChar, if_neg (by simp [h34]), if_neg (by simp [h92]), if_pos hn]
          rw [List.cons_append, List.cons_append, List.nil_append, envScan_esc_n, ih]
          simp [hcn]
        · by_cases hrr : (c == '\r') = true
          · have hcr : c = '\r' := by rwa [beq_iff_eq] at hrr
            rw [jsonEscapeChar, if_neg (by simp [h34]), if_neg (by simp [h92]),
              if_neg (by simp [hn]), if_pos hrr]
            rw [List.cons_append, List.cons_append, List.nil_append, envScan_esc_r, ih]
            simp [hcr]
          · by_cases htt : (c == '\t') = true
            · have hct : c = '\t' := by rwa [beq_iff_eq] at htt
              rw [jsonEscapeChar, if_neg (by simp [h34]), if_neg (by simp [h92]),
                if_neg (by simp [hn]), if_neg (by simp [hrr]), if_pos htt]
              rw [List.cons_append, List.cons_append, List.nil_append, envScan_esc_t, ih]
              simp [hct]
            · by_cases hb : (c.toNat == 8) = true
              · have hc : c = Char.ofNat 8 := by
                  rw [beq_iff_eq] at hb
                  rw [← hb, Char.ofNat_toNat]
                rw [jsonEscapeChar, if_neg (by simp [h34]), if_neg (by simp [h92]),
                  if_neg (by simp [hn]), if_neg (by simp [hrr]), if_neg (by simp [htt]), if_pos hb]
                rw [List.cons_append, List.cons_append, List.nil_append, envScan_esc_b, ih]
                simp [hc]
              · by_cases hf : (c.toNat == 12) = true
                · have hc : c = Char.ofNat 12 := by
                    rw [beq_iff_eq] at hf
                    rw [← hf, Char.ofNat_toNat]
                  rw [jsonEscapeChar, if_neg (by simp [h34]), if_neg (by simp [h92]),
                    if_neg (by simp [hn]), if_neg (by simp [hrr]), if_neg (by simp [htt]),
                    if_neg hb, if_pos hf]
                  rw [List.cons_append, List.cons_append, List.nil_append, envScan_esc_f, ih]
                  simp [hc]
                · by_cases hctl : c.toNat < 32
                  · rw [jsonEscapeChar, if_neg (by simp [h34]), if_neg (by simp [h92]),
                      if_neg (by simp [hn]), if_neg (by simp [hrr]), if_neg (by simp [htt]),
                      if_neg hb, if_neg hf, if_pos hctl]
                    rw [List.cons_append, List.cons_append, List.cons_append, List.cons_append,
                      List.cons_append, List.cons_append, List.nil_append,
                      envScan_esc_u c _ hctl, ih]
                    rfl
                  · rw [jsonEscapeChar, if_neg (by simp [h34]), if_neg (by simp [h92]),
                      if_neg (by simp [hn]), if_neg (by simp [hrr]), if_neg (by simp [htt]),
                      if_neg hb, if_neg hf, if_neg hctl]
                    rw [List.cons_append, List.nil_append,
                      envScan_plain c _ (by simp [h34]) (by simp [h92]), ih]
                    rfl

theorem envParse_stringify (msg : List Char) :
    envParse (stringifyErrorObj msg) = some msg := by
  unfold envParse stringifyErrorObj
  have hpre : beginsWith
      (str "\x7b\"error\":\"" ++ (jsonEscape msg ++ str "\"\x7d")) (str "\x7b\"error\":\"") =
      true := beginsWith_append _ _
  rw [List.append_assoc, if_pos hpre]
  have hdrop : (str "\x7b\"error\":\"" ++ (jsonEscape msg ++ str "\"\x7d")).drop 10 =
      jsonEscape msg ++ str "\"\x7d" := by
    have : (10 : Nat) = (str "\x7b\"error\":\"").length := rfl
    rw [this, List.drop_left]
  rw [hdrop]
  have hsfx : (str "\"\x7d" : List Char) = Char.ofNat 34 :: [Char.ofNat 125] := by decide
  rw [hsfx, envScan_append]
  simp

/-- C8: every error raised anywhere in the pipeline is caught exactly once at
the top level and converted to a 500 response whose body is the JSON object
with the single key `error` holding the message (recoverable by the
claim-side envelope parser, which accepts only that shape) and whose
Content-Type is `application/json; charset=utf-8`. -/
theorem claim_C8_error_envelope (req : Request)
    (up : OutboundRequest → Except (List Char) Response) (msg : List Char)
    (herr : fetchPipeline req up = Except.error msg) :
    fetchHandler req up = jsonResponse (stringifyErrorObj msg) 500 ∧
    (fetchHandler req up).status = 500 ∧
    headersGet (fetchHandler req up).headers (str "Content-Type") =
      some (str "application/json; charset=utf-8") ∧
    envParse (fetchHandler req up).body = some msg := by
  have hh : fetchHandler req up = jsonResponse (stringifyErrorObj msg) 500 := by
    unfold fetchHandler
    rw [herr]
  refine ⟨hh, by rw [hh]; rfl, by rw [hh]; rfl, ?_⟩
  rw [hh]
  exact envParse_stringify msg

/-- Witness for C8: an upstream network failure with message `boom` on a
well-formed request becomes the 500 envelope carrying exactly that message. -/
theorem claim_C8_witness :
    fetchHandler (Request.mk (URLParts.mk (str "https:") (str "h.test") (str "/example.com") [])
        (str "GET") [] []) (fun _ => Except.error (str "boom")) =
      jsonResponse (stringifyErrorObj (str "boom")) 500 ∧
    (fetchHandler (Request.mk (URLParts.mk (str "https:") (str "h.test") (str "/example.com") [])
        (str "GET") [] []) (fun _ => Except.error (str "boom"))).status = 500 ∧
    headersGet (fetchHandler
        (Request.mk (URLParts.mk (str "https:") (str "h.test") (str "/example.com") [])
          (str "GET") [] []) (fun _ => Except.error (str "boom"))).headers (str "Content-Type") =
      some (str "application/json; charset=utf-8") ∧
    envParse (fetchHandler
        (Request.mk (URLParts.mk (str "https:") (str "h.test") (str "/example.com") [])
          (str "GET") [] []) (fun _ => Except.error (str "boom"))).body =
      some (str "boom") :=
  claim_C8_error_envelope
    (Request.mk (URLParts.mk (str "https:") (str "h.test") (str "/example.com") [])
      (str "GET") [] [])
    (fun _ => Except.error (str "boom")) (str "boom") rfl

/-- C1 counterexample: an upstream 302 whose `Location` is the relative
reference `/next` is not resolved against the upstream URL as the claim
states; `new URL` throws and the caller receives the 500 envelope instead of
a rewritten redirect. -/
theorem claim_C1_counterexample :
    fetchHandler
        (Request.mk (URLParts.mk (str "https:") (str "proxy.test") (str "/example.com/start") [])
          (str "GET") [] [])
        (fun _ => Except.ok (Response.mk 302 [] [(str "location", str "/next")] [])) =
      jsonResponse (stringifyErrorObj (str "Invalid URL")) 500 ∧
    (fetchHandler
        (Request.mk (URLParts.mk (str "https:") (str "proxy.test") (str "/example.com/start") [])
          (str "GET") [] [])
        (fun _ => Except.ok (Response.mk 302 [] [(str "location", str "/next")] []))).status =
      500 ∧
    headersGet (fetchHandler
        (Request.mk (URLParts.mk (str "https:") (str "proxy.test") (str "/example.com/start") [])
          (str "GET") [] [])
        (fun _ => Except.ok (Response.mk 302 [] [(str "location", str "/next")] []))).headers
      (str "location") = none :=
  ⟨rfl, rfl, rfl⟩

/-- C1 as amended: for an upstream redirect whose `Location` header is already
an absolute http/https URL (with the ASCII serialization the URL serializer
produces), the relay replaces the `Location` with `/` followed by the
percent-encoded absolute location, percent-decoding that value reconstructs
the absolute location, and resolving the rewritten relative location through
the relay URL resolver yields the same absolute URL again; a relative
`Location` instead throws and yields the 500 envelope. -/
theorem claim_C1_redirect_roundtrip (resp : Response) (b loc : List Char) (u2 : URLParts)
    (_hstatus : redirectStatuses.contains resp.status = true)
    (hloc : headersGet resp.headers (str "location") = some loc)
    (hvalid : isValidHttpUrl loc = true)
    (hascii : allAscii loc = true)
    (hpath2 : u2.pathname = '/' :: encodeURIComponent loc)
    (hsearch : u2.search = []) :
    handleRedirect resp b = Except.ok (Response.mk resp.status resp.statusText
      (mkRespHeaders [(str "Location", '/' :: encodeURIComponent loc)]) b) ∧
    decodeURIComponent (encodeURIComponent loc) = Except.ok loc ∧
    resolveTarget u2 = Except.ok loc := by
  refine ⟨?_, decode_encode_ascii loc hascii, ?_⟩
  · unfold handleRedirect
    rw [hloc]
    dsimp only
    unfold jsURLParse
    rw [if_pos hvalid]
  · unfold resolveTarget
    rw [hpath2, jsReplaceFirst_leading_slash, decode_encode_ascii loc hascii]
    dsimp only
    rw [ensureProtocol_of_valid u2.protocol hvalid, hsearch, List.append_nil]

/-- Witness for C1: a 302 with absolute `Location: https://example.com/next`
is rewritten to `/https%3A%2F%2Fexample.com%2Fnext`, which decodes and
re-resolves to the same URL. -/
theorem claim_C1_witness :
    handleRedirect (Response.mk 302 [] [(str "location", str "https://example.com/next")] []) [] =
      Except.ok (Response.mk 302 []
        (mkRespHeaders [(str "Location",
          '/' :: encodeURIComponent (str "https://example.com/next"))]) []) ∧
    decodeURIComponent (encodeURIComponent (str "https://example.com/next")) =
      Except.ok (str "https://example.com/next") ∧
    resolveTarget (URLParts.mk (str "http:") (str "proxy.test")
        ('/' :: encodeURIComponent (str "https://example.com/next")) []) =
      Except.ok (str "https://example.com/next") :=
  claim_C1_redirect_roundtrip
    (Response.mk 302 [] [(str "location", str "https://example.com/next")] [])
    [] (str "https://example.com/next")
    (URLParts.mk (str "http:") (str "proxy.test")
      ('/' :: encodeURIComponent (str "https://example.com/next")) [])
    (by decide) rfl (by decide) (by decide) rfl rfl

/-- C2: the code drops every upstream header other than `Location` when
rewriting a redirect, because the object spread of a `Headers` instance
copies nothing; here an upstream `Set-Cookie` disappears, while status,
status text and body are preserved. Evaluation of handleRedirect at the
failing input. -/
theorem claim_C2_spread_drops_headers :
    handleRedirect
        (Response.mk 302 (str "Found")
          [(str "location", str "https://example.com/next"), (str "set-cookie", str "a=b")]
          (str "RB"))
        (str "RB") =
      Except.ok (Response.mk 302 (str "Found")
        [(str "location", str "/https%3A%2F%2Fexample.com%2Fnext")] (str "RB")) ∧
    headersGet [((str "location" : List Char), (str "/https%3A%2F%2Fexample.com%2Fnext" : List Char))]
      (str "set-cookie") = none :=
  ⟨rfl, rfl⟩

theorem pipeline_branches (req : Request)
    (up : OutboundRequest → Except (List Char) Response)
    (a : List Char) (mreq : OutboundRequest) (resp : Response)
    (hroot : (req.url.pathname == str "/") = false)
    (hres : resolveTarget req.url = Except.ok a)
    (hmk : mkRequest a (filterHeaders req.headers cfPred) req.method req.body = Except.ok mreq)
    (hup : up mreq = Except.ok resp) :
    fetchPipeline req up =
      (if redirectStatuses.contains resp.status then handleRedirect resp resp.body
       else if htmlContentType resp then
         match handleHtmlContent resp req.url.protocol req.url.host a with
         | Except.error e => Except.error e
         | Except.ok body => Except.ok (finalize resp body)
       else Except.ok (finalize resp resp.body)) := by
  unfold fetchPipeline
  rw [if_neg (by simp [hroot]), hres]
  dsimp only
  rw [hmk]
  dsimp only
  rw [hup]

/-- C5 counterexample: a 200 response with `Content-Type: TEXT/HTML;
charset=utf-8` contains `text/html` as a case-insensitive substring, yet the
classifier sends it to the passthrough branch, because the substring test of
the code is case-sensitive. -/
theorem claim_C5_counterexample :
    classifyResponse (Response.mk 200 []
        [(str "content-type", str "TEXT/HTML; charset=utf-8")] (str "<a href=\"/x\">")) =
      BranchClass.passthrough ∧
    containsSub (lowerStr (str "TEXT/HTML; charset=utf-8")) (str "text/html") = true ∧
    classifyResponse (Response.mk 200 []
        [(str "content-type", str "TEXT/HTML; charset=utf-8")] (str "<a href=\"/x\">")) ≠
      BranchClass.html :=
  ⟨rfl, by decide, by decide⟩

/-- C5 as amended: every upstream response is classified into exactly one of
three branches, redirect status checked first (a redirect with an HTML
content type is still a redirect); otherwise the response is HTML exactly
when its Content-Type value contains `text/html` as a case-sensitive
substring; otherwise the body passes through unchanged. The pipeline follows
the classification. -/
theorem claim_C5_classification (req : Request)
    (up : OutboundRequest → Except (List Char) Response)
    (a : List Char) (mreq : OutboundRequest) (resp : Response)
    (hroot : (req.url.pathname == str "/") = false)
    (hres : resolveTarget req.url = Except.ok a)
    (hmk : mkRequest a (filterHeaders req.headers cfPred) req.method req.body = Except.ok mreq)
    (hup : up mreq = Except.ok resp) :
    (classifyResponse resp = BranchClass.redirect ↔
      redirectStatuses.contains resp.status = true) ∧
    (classifyResponse resp = BranchClass.html ↔
      (redirectStatuses.contains resp.status = false ∧ htmlContentType resp = true)) ∧
    (classifyResponse resp = BranchClass.passthrough ↔
      (redirectStatuses.contains resp.status = false ∧ htmlContentType resp = false)) ∧
    (∀ ct, headersGet resp.headers (str "Content-Type") = some ct →
      htmlContentType resp = containsSub ct (str "text/html")) ∧
    (redirectStatuses.contains resp.status = true →
      fetchPipeline req up = handleRedirect resp resp.body) ∧
    (redirectStatuses.contains resp.status = false → htmlContentType resp = true →
      fetchPipeline req up =
        Except.map (finalize resp) (handleHtmlContent resp req.url.protocol req.url.host a)) ∧
    (redirectStatuses.contains resp.status = false → htmlContentType resp = false →
      fetchPipeline req up = Except.ok (finalize resp resp.body)) := by
  have hpipe := pipeline_branches req up a mreq resp hroot hres hmk hup
  refine ⟨?_, ?_, ?_, ?_, ?_, ?_, ?_⟩
  · unfold classifyResponse
    rcases hr : redirectStatuses.contains resp.status
    · rcases hh : htmlContentType resp <;> simp [hr, hh]
    · simp [hr]
  · unfold classifyResponse
    rcases hr : redirectStatuses.contains resp.status
    · rcases hh : htmlContentType resp <;> simp [hr, hh]
    · simp [hr]
  · unfold classifyResponse
    rcases hr : redirectStatuses.contains resp.status
    · rcases hh : htmlContentType resp <;> simp [hr, hh]
    · simp [hr]
  · intro ct hct
    unfold htmlContentType
    rw [hct]
  · intro h
    rw [hpipe, if_pos h]
  · intro h1 h2
    rw [hpipe, if_neg (by simp only [h1]; exact Bool.false_ne_true), if_pos h2]
    rcases hhc : handleHtmlContent resp req.url.protocol req.url.host a <;>
      simp [Except.map]
  · intro h1 h2
    rw [hpipe, if_neg (by simp only [h1]; exact Bool.false_ne_true),
      if_neg (by simp only [h2]; exact Bool.false_ne_true)]

/-- Witness for C5: a concrete request whose upstream returns an
HTML-classified 200 response exercises every hypothesis of the
classification theorem. -/
theorem claim_C5_witness :
    (classifyResponse (Response.mk 200 [] [(str "content-type", str "text/html")]
        (str "<p>hi</p>")) = BranchClass.redirect ↔
      redirectStatuses.contains (200 : Nat) = true) ∧
    (classifyResponse (Response.mk 200 [] [(str "content-type", str "text/html")]
        (str "<p>hi</p>")) = BranchClass.html ↔
      (redirectStatuses.contains (200 : Nat) = false ∧
        htmlContentType (Response.mk 200 [] [(str "content-type", str "text/html")]
          (str "<p>hi</p>")) = true)) := by
  have h := claim_C5_classification
    (Request.mk (URLParts.mk (str "https:") (str "h.test") (str "/example.com") [])
      (str "GET") [] [])
    (fun _ => Except.ok (Response.mk 200 [] [(str "content-type", str "text/html")]
      (str "<p>hi</p>")))
    (str "https://example.com")
    (OutboundRequest.mk (str "https://example.com") (str "GET") [] [] (str "manual"))
    (Response.mk 200 [] [(str "content-type", str "text/html")] (str "<p>hi</p>"))
    (by decide) rfl rfl rfl
  exact ⟨h.1, h.2.1⟩

theorem handleRedirect_ok_shape (resp : Response) (b : List Char) (r : Response)
    (h : handleRedirect resp b = Except.ok r) :
    r.status = resp.status ∧ ∃ ml, r.headers = [(lowerStr (str "Location"), ml)] := by
  unfold handleRedirect at h
  rcases hg : headersGet resp.headers (str "location") with _ | loc <;> rw [hg] at h
  · simp at h
  · dsimp only at h
    unfold jsURLParse at h
    by_cases hv : isValidHttpUrl loc = true
    · rw [if_pos hv] at h
      dsimp only at h
      simp only [Except.ok.injEq] at h
      subst h
      exact ⟨rfl, '/' :: encodeURIComponent loc, rfl⟩
    · rw [if_neg hv] at h
      simp at h

theorem policy_on_finalize (hs : Hdrs) :
    (headersGet (setCorsHeaders (setNoCacheHeaders hs)) (str "Cache-Control") =
        some (str "no-store") ∧
      headerCount (setCorsHeaders (setNoCacheHeaders hs)) (str "Cache-Control") = 1) ∧
    (headersGet (setCorsHeaders (setNoCacheHeaders hs)) (str "Access-Control-Allow-Origin") =
        some (str "*") ∧
      headerCount (setCorsHeaders (setNoCacheHeaders hs)) (str "Access-Control-Allow-Origin") = 1) ∧
    (headersGet (setCorsHeaders (setNoCacheHeaders hs)) (str "Access-Control-Allow-Methods") =
        some (str "GET, POST, PUT, DELETE") ∧
      headerCount (setCorsHeaders (setNoCacheHeaders hs)) (str "Access-Control-Allow-Methods") = 1) ∧
    (headersGet (setCorsHeaders (setNoCacheHeaders hs)) (str "Access-Control-Allow-Headers") =
        some (str "*") ∧
      headerCount (setCorsHeaders (setNoCacheHeaders hs)) (str "Access-Control-Allow-Headers") = 1) := by
  unfold setCorsHeaders setNoCacheHeaders
  refine ⟨⟨?_, ?_⟩, ⟨?_, ?_⟩, ⟨?_, ?_⟩, ⟨?_, ?_⟩⟩
  · rw [headersGet_set_other _ _ _ _ (by decide), headersGet_set_other _ _ _ _ (by decide),
      headersGet_set_other _ _ _ _ (by decide), headersGet_set_self]
  · rw [headerCount_set_other _ _ _ _ (by decide), headerCount_set_other _ _ _ _ (by decide),
      headerCount_set_other _ _ _ _ (by decide), headerCount_set_self]
  · rw [headersGet_set_other _ _ _ _ (by decide), headersGet_set_other _ _ _ _ (by decide),
      headersGet_set_self]
  · rw [headerCount_set_other _ _ _ _ (by decide), headerCount_set_other _ _ _ _ (by decide),
      headerCount_set_self]
  · rw [headersGet_set_other _ _ _ _ (by decide), headersGet_set_self]
  · rw [headerCount_set_other _ _ _ _ (by decide), headerCount_set_self]
  · rw [headersGet_set_self]
  · rw [headerCount_set_self]

theorem no_policy_on_location_only (ml : List Char) :
    headersGet [((lowerStr (str "Location") : List Char), ml)] (str "Cache-Control") = none ∧
    headersGet [((lowerStr (str "Location") : List Char), ml)] (str "Access-Control-Allow-Origin") = none ∧
    headersGet [((lowerStr (str "Location") : List Char), ml)] (str "Access-Control-Allow-Methods") = none ∧
    headersGet [((lowerStr (str "Location") : List Char), ml)] (str "Access-Control-Allow-Headers") = none := by
  refine ⟨?_, ?_, ?_, ?_⟩
  · unfold headersGet filterByName
    simp [List.filter,
      show (lowerStr (lowerStr (str "Location")) == lowerStr (str "Cache-Control")) = false from
        by decide]
  · unfold headersGet filterByName
    simp [List.filter,
      show (lowerStr (lowerStr (str "Location")) ==
        lowerStr (str "Access-Control-Allow-Origin")) = false from by decide]
  · unfold headersGet filterByName
    simp [List.filter,
      show (lowerStr (lowerStr (str "Location")) ==
        lowerStr (str "Access-Control-Allow-Methods")) = false from by decide]
  · unfold headersGet filterByName
    simp [List.filter,
      show (lowerStr (lowerStr (str "Location")) ==
        lowerStr (str "Access-Control-Allow-Headers")) = false from by decide]

/-- C7 counterexample: a successfully forwarded upstream 302 (absolute
`Location`) reaches the caller without `Cache-Control` or any of the CORS
headers, because the redirect branch returns before the header injectors
run. -/
theorem claim_C7_counterexample :
    (fetchHandler
        (Request.mk (URLParts.mk (str "https:") (str "proxy.test") (str "/example.com") [])
          (str "GET") [] [])
        (fun _ => Except.ok
          (Response.mk 302 [] [(str "location", str "https://example.com/a")] []))).status =
      302 ∧
    headersGet (fetchHandler
        (Request.mk (URLParts.mk (str "https:") (str "proxy.test") (str "/example.com") [])
          (str "GET") [] [])
        (fun _ => Except.ok
          (Response.mk 302 [] [(str "location", str "https://example.com/a")] []))).headers
      (str "Cache-Control") = none ∧
    headersGet (fetchHandler
        (Request.mk (URLParts.mk (str "https:") (str "proxy.test") (str "/example.com") [])
          (str "GET") [] [])
        (fun _ => Except.ok
          (Response.mk 302 [] [(str "location", str "https://example.com/a")] []))).headers
      (str "Access-Control-Allow-Origin") = none :=
  ⟨rfl, rfl, rfl⟩

/-- C7 as amended: every successful forwarded response of the HTML and
passthrough branches carries Cache-Control `no-store` and the three CORS
headers with exactly the fixed values, each exactly once, overwriting
whatever the upstream sent for those names; redirect-branch responses bypass
the header injection entirely and carry none of the four headers. -/
theorem claim_C7_policy_injection (req : Request)
    (up : OutboundRequest → Except (List Char) Response) (r : Response)
    (hroot : (req.url.pathname == str "/") = false)
    (hok : fetchPipeline req up = Except.ok r) :
    (redirectStatuses.contains r.status = false →
      (headersGet r.headers (str "Cache-Control") = some (str "no-store") ∧
        headerCount r.headers (str "Cache-Control") = 1) ∧
      (headersGet r.headers (str "Access-Control-Allow-Origin") = some (str "*") ∧
        headerCount r.headers (str "Access-Control-Allow-Origin") = 1) ∧
      (headersGet r.headers (str "Access-Control-Allow-Methods") =
          some (str "GET, POST, PUT, DELETE") ∧
        headerCount r.headers (str "Access-Control-Allow-Methods") = 1) ∧
      (headersGet r.headers (str "Access-Control-Allow-Headers") = some (str "*") ∧
        headerCount r.headers (str "Access-Control-Allow-Headers") = 1)) ∧
    (redirectStatuses.contains r.status = true →
      headersGet r.headers (str "Cache-Control") = none ∧
      headersGet r.headers (str "Access-Control-Allow-Origin") = none ∧
      headersGet r.headers (str "Access-Control-Allow-Methods") = none ∧
      headersGet r.headers (str "Access-Control-Allow-Headers") = none) := by
  unfold fetchPipeline at hok
  rw [if_neg (by simp [hroot])] at hok
  rcases hrt : resolveTarget req.url with e | a <;> rw [hrt] at hok
  · simp at hok
  · dsimp only at hok
    rcases hmk : mkRequest a (filterHeaders req.headers cfPred) req.method req.body with
      e | mreq <;> rw [hmk] at hok
    · simp at hok
    · dsimp only at hok
      rcases hup : up mreq with e | resp <;> rw [hup] at hok
      · simp at hok
      · dsimp only at hok
        by_cases hcr : redirectStatuses.contains resp.status = true
        · rw [if_pos hcr] at hok
          obtain ⟨hst, ml, hhd⟩ := handleRedirect_ok_shape resp resp.body r hok
          constructor
          · intro hfalse
            rw [hst, hcr] at hfalse
            exact absurd hfalse (by simp)
          · intro _
            rw [hhd]
            exact no_policy_on_location_only ml
        · rw [if_neg hcr] at hok
          have hr2 : ∃ body, r = finalize resp body := by
            by_cases hh : htmlContentType resp = true
            · rw [if_pos hh] at hok
              rcases hhc : handleHtmlContent resp req.url.protocol req.url.host a with
                e | body <;> rw [hhc] at hok
              · simp at hok
              · simp only [Except.ok.injEq] at hok
                exact ⟨body, hok.symm⟩
            · rw [if_neg hh] at hok
              simp only [Except.ok.injEq] at hok
              exact ⟨resp.body, hok.symm⟩
          obtain ⟨body, hr2⟩ := hr2
          have hhd : r.headers = setCorsHeaders (setNoCacheHeaders resp.headers) := by
            rw [hr2]
            rfl
          have hst : r.status = resp.status := by
            rw [hr2]
            rfl
          constructor
          · intro _
            rw [hhd]
            exact policy_on_finalize resp.headers
          · intro htrue
            rw [hst] at htrue
            exact absurd htrue hcr

/-- Witness for C7: a passthrough 200 response through the pipeline carries
all four injected headers with the exact values. -/
theorem claim_C7_witness :
    (headersGet (Response.mk 200 []
        [((str "cache-control" : List Char), (str "no-store" : List Char)),
         (str "access-control-allow-origin", str "*"),
         (str "access-control-allow-methods", str "GET, POST, PUT, DELETE"),
         (str "access-control-allow-headers", str "*")] (str "B")).headers
        (str "Cache-Control") = some (str "no-store") ∧
      headerCount (Response.mk 200 []
        [((str "cache-control" : List Char), (str "no-store" : List Char)),
         (str "access-control-allow-origin", str "*"),
         (str "access-control-allow-methods", str "GET, POST, PUT, DELETE"),
         (str "access-control-allow-headers", str "*")] (str "B")).headers
        (str "Cache-Control") = 1) ∧
    (headersGet (Response.mk 200 []
        [((str "cache-control" : List Char), (str "no-store" : List Char)),
         (str "access-control-allow-origin", str "*"),
         (str "access-control-allow-methods", str "GET, POST, PUT, DELETE"),
         (str "access-control-allow-headers", str "*")] (str "B")).headers
        (str "Access-Control-Allow-Origin") = some (str "*") ∧
      headerCount (Response.mk 200 []
        [((str "cache-control" : List Char), (str "no-store" : List Char)),
         (str "access-control-allow-origin", str "*"),
         (str "access-control-allow-methods", str "GET, POST, PUT, DELETE"),
         (str "access-control-allow-headers", str "*")] (str "B")).headers
        (str "Access-Control-Allow-Origin") = 1) ∧
    (headersGet (Response.mk 200 []
        [((str "cache-control" : List Char), (str "no-store" : List Char)),
         (str "access-control-allow-origin", str "*"),
         (str "access-control-allow-methods", str "GET, POST, PUT, DELETE"),
         (str "access-control-allow-headers", str "*")] (str "B")).headers
        (str "Access-Control-Allow-Methods") = some (str "GET, POST, PUT, DELETE") ∧
      headerCount (Response.mk 200 []
        [((str "cache-control" : List Char), (str "no-store" : List Char)),
         (str "access-control-allow-origin", str "*"),
         (str "access-control-allow-methods", str "GET, POST, PUT, DELETE"),
         (str "access-control-allow-headers", str "*")] (str "B")).headers
        (str "Access-Control-Allow-Methods") = 1) ∧
    (headersGet (Response.mk 200 []
        [((str "cache-control" : List Char), (str "no-store" : List Char)),
         (str "access-control-allow-origin", str "*"),
         (str "access-control-allow-methods", str "GET, POST, PUT, DELETE"),
         (str "access-control-allow-headers", str "*")] (str "B")).headers
        (str "Access-Control-Allow-Headers") = some (str "*") ∧
      headerCount (Response.mk 200 []
        [((str "cache-control" : List Char), (str "no-store" : List Char)),
         (str "access-control-allow-origin", str "*"),
         (str "access-control-allow-methods", str "GET, POST, PUT, DELETE"),
         (str "access-control-allow-headers", str "*")] (str "B")).headers
        (str "Access-Control-Allow-Headers") = 1) := by
  have h := claim_C7_policy_injection
    (Request.mk (URLParts.mk (str "https:") (str "h.test") (str "/example.com") [])
      (str "GET") [] [])
    (fun _ => Except.ok (Response.mk 200 [] [] (str "B")))
    (Response.mk 200 []
      [((str "cache-control" : List Char), (str "no-store" : List Char)),
       (str "access-control-allow-origin", str "*"),
       (str "access-control-allow-methods", str "GET, POST, PUT, DELETE"),
       (str "access-control-allow-headers", str "*")] (str "B"))
    (by decide) rfl
  exact h.1 (by decide)

/-- C4: the header filter is a pure total function of the inbound header set:
it equals the plain filter over the iteration view that drops exactly the
names starting with `cf-` (tested on the lowercased name, hence
case-insensitively in the raw name), every surviving entry keeps its value,
relative order (sublist of the view) and multiplicity, and entries whose
lowercased name starts with `cf-` never survive. -/
theorem claim_C4_filter_headers (hs : Hdrs) :
    filterHeaders hs cfPred =
      (headersIter hs).filter (fun p => !(beginsWith p.1 (str "cf-"))) ∧
    (∀ p, p ∈ filterHeaders hs cfPred → beginsWith p.1 (str "cf-") = false) ∧
    List.Sublist (filterHeaders hs cfPred) (headersIter hs) ∧
    (∀ n v, beginsWith (lowerStr n) (str "cf-") = false →
      (filterHeaders hs cfPred).count (lowerStr n, v) = (headersIter hs).count (lowerStr n, v)) ∧
    (∀ n v, beginsWith (lowerStr n) (str "cf-") = true →
      (lowerStr n, v) ∉ filterHeaders hs cfPred) := by
  refine ⟨rfl, ?_, ?_, ?_, ?_⟩
  · intro p hp
    have := List.of_mem_filter hp
    simpa [cfPred] using this
  · exact List.filter_sublist _
  · intro n v h
    unfold filterHeaders
    rw [List.count_filter]
    simp [cfPred, h]
  · intro n v h hmem
    have := List.of_mem_filter hmem
    simp [cfPred, h] at this

/-- Witness for C4: concretely, mixed-case `CF-Connecting-IP` is dropped
(case-insensitively) and a non-reserved header keeps its multiplicity. -/
theorem claim_C4_witness :
    (filterHeaders
        [(str "CF-Connecting-IP", str "1.2.3.4"), (str "Accept", str "text/html"),
         (str "cf-ray", str "x"), (str "accept", str "text/html")] cfPred).count
      (lowerStr (str "Accept"), str "text/html") =
    (headersIter
        [(str "CF-Connecting-IP", str "1.2.3.4"), (str "Accept", str "text/html"),
         (str "cf-ray", str "x"), (str "accept", str "text/html")]).count
      (lowerStr (str "Accept"), str "text/html") ∧
    (lowerStr (str "CF-Connecting-IP"), str "1.2.3.4") ∉ filterHeaders
        [(str "CF-Connecting-IP", str "1.2.3.4"), (str "Accept", str "text/html"),
         (str "cf-ray", str "x"), (str "accept", str "text/html")] cfPred := by
  have h := claim_C4_filter_headers
    [(str "CF-Connecting-IP", str "1.2.3.4"), (str "Accept", str "text/html"),
     (str "cf-ray", str "x"), (str "accept", str "text/html")]
  exact ⟨h.2.2.2.1 (str "Accept") (str "text/html") (by decide),
    h.2.2.2.2 (str "CF-Connecting-IP") (str "1.2.3.4") (by decide)⟩

theorem specMatchAt_href (q : Char) (rest : List Char)
    (hq : isQuoteCh q = true) (hs : startsSlash rest = false) :
    specMatchAt ('h' :: 'r' :: 'e' :: 'f' :: '=' :: q :: '/' :: rest) =
      some (str "href" ++ ['=', q], rest) := by
  unfold specMatchAt specAttrs
  simp [List.findSome?, hq, hs,
    show beginsWith ('h' :: 'r' :: 'e' :: 'f' :: '=' :: q :: '/' :: rest) (str "href") = true
      from rfl,
    show List.drop (str "href").length ('h' :: 'r' :: 'e' :: 'f' :: '=' :: q :: '/' :: rest) =
      '=' :: q :: '/' :: rest from rfl]

theorem specMatchAt_src (q : Char) (rest : List Char)
    (hq : isQuoteCh q = true) (hs : startsSlash rest = false) :
    specMatchAt ('s' :: 'r' :: 'c' :: '=' :: q :: '/' :: rest) =
      some (str "src" ++ ['=', q], rest) := by
  unfold specMatchAt specAttrs
  simp [List.findSome?, hq, hs,
    show beginsWith ('s' :: 'r' :: 'c' :: '=' :: q :: '/' :: rest) (str "src") = true from rfl,
    show beginsWith ('s' :: 'r' :: 'c' :: '=' :: q :: '/' :: rest) (str "href") = false from rfl,
    show List.drop (str "src").length ('s' :: 'r' :: 'c' :: '=' :: q :: '/' :: rest) =
      '=' :: q :: '/' :: rest from rfl]

theorem specMatchAt_action (q : Char) (rest : List Char)
    (hq : isQuoteCh q = true) (hs : startsSlash rest = false) :
    specMatchAt ('a' :: 'c' :: 't' :: 'i' :: 'o' :: 'n' :: '=' :: q :: '/' :: rest) =
      some (str "action" ++ ['=', q], rest) := by
  unfold specMatchAt specAttrs
  simp [List.findSome?, hq, hs,
    show beginsWith ('a' :: 'c' :: 't' :: 'i' :: 'o' :: 'n' :: '=' :: q :: '/' :: rest)
      (str "action") = true from rfl,
    show beginsWith ('a' :: 'c' :: 't' :: 'i' :: 'o' :: 'n' :: '=' :: q :: '/' :: rest)
      (str "href") = false from rfl,
    show beginsWith ('a' :: 'c' :: 't' :: 'i' :: 'o' :: 'n' :: '=' :: q :: '/' :: rest)
      (str "src") = false from rfl,
    show List.drop (str "action").length
      ('a' :: 'c' :: 't' :: 'i' :: 'o' :: 'n' :: '=' :: q :: '/' :: rest) =
      '=' :: q :: '/' :: rest from rfl]

theorem specMatchAt_href_neg (q : Char) (rest : List Char)
    (hg : (isQuoteCh q && !startsSlash rest) = false) :
    specMatchAt ('h' :: 'r' :: 'e' :: 'f' :: '=' :: q :: '/' :: rest) = none := by
  unfold specMatchAt specAttrs
  have hg2 : ¬(isQuoteCh q = true ∧ startsSlash rest = false) := by
    intro ⟨a, b⟩
    rw [a, b] at hg
    simp at hg
  simp [List.findSome?, hg2,
    show beginsWith ('h' :: 'r' :: 'e' :: 'f' :: '=' :: q :: '/' :: rest) (str "href") = true
      from rfl,
    show beginsWith ('h' :: 'r' :: 'e' :: 'f' :: '=' :: q :: '/' :: rest) (str "src") = false
      from rfl,
    show beginsWith ('h' :: 'r' :: 'e' :: 'f' :: '=' :: q :: '/' :: rest) (str "action") = false
      from rfl,
    show List.drop (str "href").length ('h' :: 'r' :: 'e' :: 'f' :: '=' :: q :: '/' :: rest) =
      '=' :: q :: '/' :: rest from rfl]

theorem specMatchAt_src_neg (q : Char) (rest : List Char)
    (hg : (isQuoteCh q && !startsSlash rest) = false) :
    specMatchAt ('s' :: 'r' :: 'c' :: '=' :: q :: '/' :: rest) = none := by
  unfold specMatchAt specAttrs
  have hg2 : ¬(isQuoteCh q = true ∧ startsSlash rest = false) := by
    intro ⟨a, b⟩
    rw [a, b] at hg
    simp at hg
  simp [List.findSome?, hg2,
    show beginsWith ('s' :: 'r' :: 'c' :: '=' :: q :: '/' :: rest) (str "src") = true from rfl,
    show beginsWith ('s' :: 'r' :: 'c' :: '=' :: q :: '/' :: rest) (str "href") = false from rfl,
    show beginsWith ('s' :: 'r' :: 'c' :: '=' :: q :: '/' :: rest) (str "action") = false from rfl,
    show List.drop (str "src").length ('s' :: 'r' :: 'c' :: '=' :: q :: '/' :: rest) =
      '=' :: q :: '/' :: rest from rfl]

theorem specMatchAt_action_neg (q : Char) (rest : List Char)
    (hg : (isQuoteCh q && !startsSlash rest) = false) :
    specMatchAt ('a' :: 'c' :: 't' :: 'i' :: 'o' :: 'n' :: '=' :: q :: '/' :: rest) = none := by
  unfold specMatchAt specAttrs
  have hg2 : ¬(isQuoteCh q = true ∧ startsSlash rest = false) := by
    intro ⟨a, b⟩
    rw [a, b] at hg
    simp at hg
  simp [List.findSome?, hg2,
    show beginsWith ('a' :: 'c' :: 't' :: 'i' :: 'o' :: 'n' :: '=' :: q :: '/' :: rest)
      (str "action") = true from rfl,
    show beginsWith ('a' :: 'c' :: 't' :: 'i' :: 'o' :: 'n' :: '=' :: q :: '/' :: rest)
      (str "href") = false from rfl,
    show beginsWith ('a' :: 'c' :: 't' :: 'i' :: 'o' :: 'n' :: '=' :: q :: '/' :: rest)
      (str "src") = false from rfl,
    show List.drop (str "action").length
      ('a' :: 'c' :: 't' :: 'i' :: 'o' :: 'n' :: '=' :: q :: '/' :: rest) =
      '=' :: q :: '/' :: rest from rfl]

theorem specMatchAt_none_default (c : Char) (rest : List Char)
    (h1 : ∀ (q : Char) (r1 : List Char),
      c = 'h' → rest = 'r' :: 'e' :: 'f' :: '=' :: q :: '/' :: r1 → False)
    (h2 : ∀ (q : Char) (r1 : List Char),
      c = 's' → rest = 'r' :: 'c' :: '=' :: q :: '/' :: r1 → False)
    (h3 : ∀ (q : Char) (r1 : List Char),
      c = 'a' → rest = 'c' :: 't' :: 'i' :: 'o' :: 'n' :: '=' :: q :: '/' :: r1 → False) :
    specMatchAt (c :: rest) = none := by
  unfold specMatchAt
  rw [List.findSome?_eq_none_iff]
  intro a ha
  have key : ∀ (q : Char) (r1 : List Char), c :: rest = a ++ '=' :: q :: '/' :: r1 → False := by
    intro q r1 he
    unfold specAttrs at ha
    simp only [List.mem_cons, List.not_mem_nil, or_false] at ha
    rcases ha with rfl | rfl | rfl
    · have h' : c = 'h' ∧ rest = 'r' :: 'e' :: 'f' :: '=' :: q :: '/' :: r1 := by
        have he2 : c :: rest = 'h' :: 'r' :: 'e' :: 'f' :: '=' :: q :: '/' :: r1 := he
        simpa using he2
      exact h1 q r1 h'.1 h'.2
    · have h' : c = 's' ∧ rest = 'r' :: 'c' :: '=' :: q :: '/' :: r1 := by
        have he2 : c :: rest = 's' :: 'r' :: 'c' :: '=' :: q :: '/' :: r1 := he
        simpa using he2
      exact h2 q r1 h'.1 h'.2
    · have h' : c = 'a' ∧ rest = 'c' :: 't' :: 'i' :: 'o' :: 'n' :: '=' :: q :: '/' :: r1 := by
        have he2 : c :: rest = 'a' :: 'c' :: 't' :: 'i' :: 'o' :: 'n' :: '=' :: q :: '/' :: r1 := he
        simpa using he2
      exact h3 q r1 h'.1 h'.2
  by_cases hb : beginsWith (c :: rest) a = true
  · rw [if_pos hb]
    obtain ⟨t, ht⟩ := beginsWith_exists hb
    have hdrop : (c :: rest).drop a.length = t := by
      rw [ht]
      exact List.drop_left _ _
    rw [hdrop]
    rcases t with _ | ⟨e, _ | ⟨q, _ | ⟨sl, r1⟩⟩⟩
    · rfl
    · rfl
    · rfl
    · dsimp only
      by_cases hcond : (e == '=' && isQuoteCh q && sl == '/' && !startsSlash r1) = true
      · exfalso
        simp only [Bool.and_eq_true, beq_iff_eq] at hcond
        obtain ⟨⟨⟨he, _hq⟩, hsl⟩, _hss⟩ := hcond
        subst he
        subst hsl
        exact key q r1 ht
      · rw [if_neg hcond]
  · rw [if_neg hb]

theorem specMatchAt_shrink {s g1 next : List Char}
    (h : specMatchAt s = some (g1, next)) : next.length < s.length := by
  unfold specMatchAt at h
  obtain ⟨a, _ha, hf⟩ := List.exists_of_findSome?_eq_some h
  by_cases hb : beginsWith s a = true
  · rw [if_pos hb] at hf
    obtain ⟨t, ht⟩ := beginsWith_exists hb
    have hdrop : s.drop a.length = t := by
      rw [ht]
      exact List.drop_left _ _
    rw [hdrop] at hf
    rcases t with _ | ⟨e, _ | ⟨q, _ | ⟨sl, r1⟩⟩⟩
    · simp at hf
    · simp at hf
    · simp at hf
    · dsimp only at hf
      by_cases hcond : (e == '=' && isQuoteCh q && sl == '/' && !startsSlash r1) = true
      · rw [if_pos hcond] at hf
        simp only [Option.some.injEq, Prod.mk.injEq] at hf
        have hnext : next = r1 := hf.2.symm
        have hlen := congrArg List.length ht
        simp only [List.length_cons, List.length_append] at hlen
        subst hnext
        omega
      · rw [if_neg hcond] at hf
        simp at hf
  · rw [if_neg hb] at hf
    simp at hf

theorem specRewriteFuel_nil (repl : List Char) (fl : Nat) :
    specRewriteFuel repl fl [] = [] := by
  cases fl <;> rfl

theorem specRewriteFuel_succ (repl : List Char) (fl : Nat) (c : Char) (rest : List Char) :
    specRewriteFuel repl (fl + 1) (c :: rest) =
      match specMatchAt (c :: rest) with
      | some (g1, next) => g1 ++ repl ++ specRewriteFuel repl fl next
      | none => c :: specRewriteFuel repl fl rest := rfl

theorem specRewriteFuel_congr (repl : List Char) :
    ∀ f1 f2 s, s.length ≤ f1 → s.length ≤ f2 →
      specRewriteFuel repl f1 s = specRewriteFuel repl f2 s := by
  intro f1
  induction f1 with
  | zero =>
    intro f2 s h1 _h2
    have hs : s = [] := List.eq_nil_of_length_eq_zero (Nat.le_zero.mp h1)
    subst hs
    rw [specRewriteFuel_nil, specRewriteFuel_nil]
  | succ f ih =>
    intro f2 s h1 h2
    cases s with
    | nil => rw [specRewriteFuel_nil, specRewriteFuel_nil]
    | cons c rest =>
      cases f2 with
      | zero =>
        simp at h2
      | succ f2' =>
        rw [specRewriteFuel_succ, specRewriteFuel_succ]
        rcases hm : specMatchAt (c :: rest) with _ | ⟨g1, next⟩
        · dsimp only
          have hr : rest.length ≤ f := by
            simp at h1
            omega
          have hr2 : rest.length ≤ f2' := by
            simp at h2
            omega
          rw [ih f2' rest hr hr2]
        · dsimp only
          have hlt := specMatchAt_shrink hm
          have hn1 : next.length ≤ f := by
            simp at h1 hlt
            omega
          have hn2 : next.length ≤ f2' := by
            simp at h2 hlt
            omega
          rw [ih f2' next hn1 hn2]

set_option maxHeartbeats 1000000 in
theorem rrpGo_eq_spec (repl : List Char) :
    ∀ s, rrpGo repl s = specRewriteFuel repl s.length s := by
  intro s
  induction s using rrpGo.induct repl with
  | case1 => rfl
  | case2 q rest hg ih =>
    simp only [Bool.and_eq_true, Bool.not_eq_true'] at hg
    rw [show rrpGo repl ('h' :: 'r' :: 'e' :: 'f' :: '=' :: q :: '/' :: rest) =
      (if isQuoteCh q && !startsSlash rest then str "href=" ++ q :: repl ++ rrpGo repl rest
       else 'h' :: rrpGo repl ('r' :: 'e' :: 'f' :: '=' :: q :: '/' :: rest)) from rfl]
    rw [if_pos (by simp [hg.1, hg.2])]
    rw [show ('h' :: 'r' :: 'e' :: 'f' :: '=' :: q :: '/' :: rest).length =
      (rest.length + 6) + 1 from by simp]
    rw [specRewriteFuel_succ, specMatchAt_href q rest hg.1 hg.2]
    dsimp only
    rw [specRewriteFuel_congr repl (rest.length + 6) rest.length rest (by omega) (by omega)]
    rw [← ih]
    simp [str, List.append_assoc]
  | case3 q rest hg ih =>
    rw [show rrpGo repl ('h' :: 'r' :: 'e' :: 'f' :: '=' :: q :: '/' :: rest) =
      (if isQuoteCh q && !startsSlash rest then str "href=" ++ q :: repl ++ rrpGo repl rest
       else 'h' :: rrpGo repl ('r' :: 'e' :: 'f' :: '=' :: q :: '/' :: rest)) from rfl]
    rw [if_neg hg]
    rw [show ('h' :: 'r' :: 'e' :: 'f' :: '=' :: q :: '/' :: rest).length =
      ('r' :: 'e' :: 'f' :: '=' :: q :: '/' :: rest).length + 1 from rfl]
    rw [specRewriteFuel_succ, specMatchAt_href_neg q rest (Bool.not_eq_true _ |>.mp hg)]
    dsimp only
    rw [ih]
  | case4 q rest hg ih =>
    simp only [Bool.and_eq_true, Bool.not_eq_true'] at hg
    rw [show rrpGo repl ('s' :: 'r' :: 'c' :: '=' :: q :: '/' :: rest) =
      (if isQuoteCh q && !startsSlash rest then str "src=" ++ q :: repl ++ rrpGo repl rest
       else 's' :: rrpGo repl ('r' :: 'c' :: '=' :: q :: '/' :: rest)) from rfl]
    rw [if_pos (by simp [hg.1, hg.2])]
    rw [show ('s' :: 'r' :: 'c' :: '=' :: q :: '/' :: rest).length =
      (rest.length + 5) + 1 from by simp]
    rw [specRewriteFuel_succ, specMatchAt_src q rest hg.1 hg.2]
    dsimp only
    rw [specRewriteFuel_congr repl (rest.length + 5) rest.length rest (by omega) (by omega)]
    rw [← ih]
    simp [str, List.append_assoc]
  | case5 q rest hg ih =>
    rw [show rrpGo repl ('s' :: 'r' :: 'c' :: '=' :: q :: '/' :: rest) =
      (if isQuoteCh q && !startsSlash rest then str "src=" ++ q :: repl ++ rrpGo repl rest
       else 's' :: rrpGo repl ('r' :: 'c' :: '=' :: q :: '/' :: rest)) from rfl]
    rw [if_neg hg]
    rw [show ('s' :: 'r' :: 'c' :: '=' :: q :: '/' :: rest).length =
      ('r' :: 'c' :: '=' :: q :: '/' :: rest).length + 1 from rfl]
    rw [specRewriteFuel_succ, specMatchAt_src_neg q rest (Bool.not_eq_true _ |>.mp hg)]
    dsimp only
    rw [ih]
  | case6 q rest hg ih =>
    simp only [Bool.and_eq_true, Bool.not_eq_true'] at hg
    rw [show rrpGo repl ('a' :: 'c' :: 't' :: 'i' :: 'o' :: 'n' :: '=' :: q :: '/' :: rest) =
      (if isQuoteCh q && !startsSlash rest then str "action=" ++ q :: repl ++ rrpGo repl rest
       else 'a' :: rrpGo repl ('c' :: 't' :: 'i' :: 'o' :: 'n' :: '=' :: q :: '/' :: rest))
      from rfl]
    rw [if_pos (by simp [hg.1, hg.2])]
    rw [show ('a' :: 'c' :: 't' :: 'i' :: 'o' :: 'n' :: '=' :: q :: '/' :: rest).length =
      (rest.length + 8) + 1 from by simp]
    rw [specRewriteFuel_succ, specMatchAt_action q rest hg.1 hg.2]
    dsimp only
    rw [specRewriteFuel_congr repl (rest.length + 8) rest.length rest (by omega) (by omega)]
    rw [← ih]
    simp [str, List.append_assoc]
  | case7 q rest hg ih =>
    rw [show rrpGo repl ('a' :: 'c' :: 't' :: 'i' :: 'o' :: 'n' :: '=' :: q :: '/' :: rest) =
      (if isQuoteCh q && !startsSlash rest then str "action=" ++ q :: repl ++ rrpGo repl rest
       else 'a' :: rrpGo repl ('c' :: 't' :: 'i' :: 'o' :: 'n' :: '=' :: q :: '/' :: rest))
      from rfl]
    rw [if_neg hg]
    rw [show ('a' :: 'c' :: 't' :: 'i' :: 'o' :: 'n' :: '=' :: q :: '/' :: rest).length =
      ('c' :: 't' :: 'i' :: 'o' :: 'n' :: '=' :: q :: '/' :: rest).length + 1 from rfl]
    rw [specRewriteFuel_succ, specMatchAt_action_neg q rest (Bool.not_eq_true _ |>.mp hg)]
    dsimp only
    rw [ih]
  | case8 c rest m1 m2 m3 ih =>
    have hnone := specMatchAt_none_default c rest m1 m2 m3
    have hstep : rrpGo repl (c :: rest) = c :: rrpGo repl rest := by
      simp only [rrpGo]
    rw [hstep, show (c :: rest).length = rest.length + 1 from rfl,
      specRewriteFuel_succ, hnone]
    dsimp only
    rw [ih]

/-- C6: the regex-based rewrite of the code coincides, on every input, with
the specification-side scan that replaces the leading `/` of every
`href=`/`src=`/`action=` attribute-quote occurrence (not followed by a second
`/`) with the inbound scheme, `//`, the inbound host, `/`, the target origin
and `/`; concretely, a root-relative `src` is rewritten to re-enter the relay
at the target origin and a protocol-relative reference is left unmodified. -/
theorem claim_C6_relative_rewrite :
    (∀ text protocol host origin,
      replaceRelativePaths text protocol host origin =
        specRelativeRewrite text protocol host origin) ∧
    handleHtmlContent (Response.mk 200 [] [(str "content-type", str "text/html")]
        (str "<img src=\"/logo.png\">")) (str "https:") (str "proxy.test")
      (str "https://target.example/page") =
      Except.ok (str "<img src=\"https://proxy.test/https://target.example/logo.png\">") ∧
    handleHtmlContent (Response.mk 200 [] [(str "content-type", str "text/html")]
        (str "<img src=\"//cdn.example.com/x.png\">")) (str "https:") (str "proxy.test")
      (str "https://target.example/page") =
      Except.ok (str "<img src=\"//cdn.example.com/x.png\">") := by
  refine ⟨?_, rfl, rfl⟩
  intro text protocol host origin
  unfold replaceRelativePaths specRelativeRewrite
  exact rrpGo_eq_spec _ text

end CFProxy
